import Mathlib

/-!
# eportfolio/tailwind.config.js

A verification development for the Tailwind configuration module of the
`unchained` repository.  The module is one assignment

    module.exports = { content: [...], theme: { ... }, plugins: [ require(...) ] }

so the embedding consists of

* a small universe of JavaScript values (`JSValue`),
* the evaluation rules of array and object literals (`arrayLiteral`,
  `objectLiteral`), of property reads (`JSValue.getProp`) and of property
  assignments (`assignPath`),
* the module body itself (`content`, `theme`, `plugins`, `moduleExports`), with
  the module loader `require` as a parameter, since the package
  `@tailwindcss/typography` is not part of the repository,
* the collaborators that the specification names and the repository does not
  contain: JSON serialization (`serialize`, `deserialize`), a reference glob
  grammar (`parseGlob`) and the additive merge of extensions
  (`mergeExtensions`).
-/

namespace Unchained

/-! ## JavaScript values -/

/-- The JavaScript values that can occur in the configuration.  Number literals
do not occur in the file and are left out.  An object is its list of own data
properties in property order.  A function object is represented by its
reference `ref` alone: two function values are the same value exactly when they
are the same object, and a function object has no properties of its own (in
particular no `toJSON`). -/
inductive JSValue where
  | undefined
  | null
  | bool (b : Bool)
  | str (s : String)
  | arr (items : List JSValue)
  | obj (props : List (String × JSValue))
  | fn (ref : Nat)
  deriving Inhabited

/-- What can go wrong while a module is being loaded. -/
inductive JSError where
  | moduleNotFound (request : String)
  | moduleThrew (request : String)
  deriving DecidableEq, Inhabited

/-- The CommonJS loader as the file sees it: a request either resolves to the
exports of the requested module or throws. -/
abbrev Require := String → Except JSError JSValue

/-- Defining the own property `k` of an object: a property that already exists
keeps its position and takes the new value, a new property is appended. -/
def setProp (k : String) (v : JSValue) :
    List (String × JSValue) → List (String × JSValue)
  | [] => [(k, v)]
  | (k', v') :: ps => if k' = k then (k, v) :: ps else (k', v') :: setProp k v ps

/-- Evaluation of an object literal `{ k1: v1, ..., kn: vn }`: the properties
are defined one after the other, from left to right.  (None of the keys of the
file is an array index, so the property order is the order of definition.) -/
def objectLiteral (entries : List (String × JSValue)) : JSValue :=
  .obj (entries.foldl (fun ps kv => setProp kv.1 kv.2 ps) [])

/-- Evaluation of an array literal `[ v1, ..., vn ]`: the elements are stored
at the indices `0, 1, ...` from left to right. -/
def arrayLiteral (elems : List JSValue) : JSValue :=
  .arr (elems.foldl (fun items v => items ++ [v]) [])

/-- Lookup of an own property in a property list. -/
def lookupProp (k : String) : List (String × JSValue) → Option JSValue
  | [] => none
  | (k', v) :: ps => if k' = k then some v else lookupProp k ps

/-- The property read `v.k`: `none` when `v` is not an object or has no own
property `k`. -/
def JSValue.getProp (v : JSValue) (k : String) : Option JSValue :=
  match v with
  | .obj ps => lookupProp k ps
  | _ => none

/-- A chain of property reads `v.k1.k2. ... .kn`. -/
def JSValue.getPath (v : JSValue) : List String → Option JSValue
  | [] => some v
  | k :: ks => match v.getProp k with
    | some w => w.getPath ks
    | none => none

/-- The own property names of an object, in property order
(`Object.keys`). -/
def JSValue.keys : JSValue → List String
  | .obj ps => ps.map Prod.fst
  | _ => []

/-- The indexed read `v[i]` of an array. -/
def JSValue.index (v : JSValue) (i : Nat) : Option JSValue :=
  match v with
  | .arr items => items.get? i
  | _ => none

/-- The `length` of an array. -/
def JSValue.length : JSValue → Option Nat
  | .arr items => some items.length
  | _ => none

/-! ## The module `eportfolio/tailwind.config.js` -/

/-- The request string of the one `require` call of the file. -/
def typographyRequest : String := "@tailwindcss/typography"

/-- Line 3: `content: ["./templates/**/*.{html,js,ts}"]`. -/
def content : JSValue :=
  arrayLiteral [.str "./templates/**/*.\x7bhtml,js,ts\x7d"]

/-- Lines 9 to 13: `theme.extend.colors`. -/
def colors : JSValue :=
  objectLiteral
    [ ("light-red", .str "#FFDADA"),
      ("light-blue", .str "#DADFFF"),
      ("off-white", .str "#F8F8F8") ]

/-- Lines 14 to 17: `theme.extend.backgroundImage`. -/
def backgroundImage : JSValue :=
  objectLiteral
    [ ("gradient-radial",
       .str "radial-gradient(farthest-corner at 300px 400px, var(--tw-gradient-stops))") ]

/-- Lines 4 to 19: `theme`. -/
def theme : JSValue :=
  objectLiteral
    [ ("container", objectLiteral [("center", .bool true)]),
      ("extend", objectLiteral [("colors", colors), ("backgroundImage", backgroundImage)]) ]

/-- Lines 20 to 22: `plugins`, given the value the `require` call returned. -/
def plugins (typography : JSValue) : JSValue :=
  arrayLiteral [typography]

/-- Lines 2 to 23: the value assigned to `module.exports`.  The only call in
the object literal is `require('@tailwindcss/typography')`; when it throws, so
does the evaluation of the module. -/
def moduleExports (require : Require) : Except JSError JSValue := do
  let typography ← require typographyRequest
  pure (objectLiteral
    [ ("content", content),
      ("theme", theme),
      ("plugins", plugins typography) ])

/-! ## The five attributes of the specification -/

/-- The attribute `contentGlobs`, which is `config.content`. -/
def contentGlobs (cfg : JSValue) : Option JSValue := cfg.getPath ["content"]

/-- The attribute `containerCentering`, which is
`config.theme.container.center`. -/
def containerCentering (cfg : JSValue) : Option JSValue :=
  cfg.getPath ["theme", "container", "center"]

/-- The attribute `paletteExtensions`, which is `config.theme.extend.colors`. -/
def paletteExtensions (cfg : JSValue) : Option JSValue :=
  cfg.getPath ["theme", "extend", "colors"]

/-- The attribute `backgroundImageExtensions`, which is
`config.theme.extend.backgroundImage`. -/
def backgroundImageExtensions (cfg : JSValue) : Option JSValue :=
  cfg.getPath ["theme", "extend", "backgroundImage"]

/-- The attribute `pluginList`, which is `config.plugins`. -/
def pluginList (cfg : JSValue) : Option JSValue := cfg.getPath ["plugins"]

/-! ## JSON text: serialize and deserialize

The specification speaks of a round trip through serialize and deserialize and
the repository contains neither.  They are taken to be the serialization of
the host language, `JSON.stringify` and `JSON.parse`, on the value universe
`JSValue`.  Where the result of the real functions depends on something the
universe does not describe (the body of a `toJSON` method, a number, a
surrogate escape), the model says so in its result instead of giving an
answer. -/

/-- The lower-case hexadecimal digit of a number below sixteen. -/
def hexDigit (n : Nat) : Char :=
  if n < 10 then Char.ofNat (48 + n) else Char.ofNat (87 + n)

/-- QuoteJSONString, one character: the quotation mark, the reverse solidus
and the control characters are escaped, every other character stands for
itself. -/
def escapeChar (c : Char) : List Char :=
  if c = '"' then ['\\', '"']
  else if c = '\\' then ['\\', '\\']
  else if c = Char.ofNat 8 then ['\\', 'b']
  else if c = Char.ofNat 12 then ['\\', 'f']
  else if c = '\n' then ['\\', 'n']
  else if c = '\r' then ['\\', 'r']
  else if c = '\t' then ['\\', 't']
  else if c.toNat < 32 then
    ['\\', 'u', '0', '0', hexDigit (c.toNat / 16), hexDigit (c.toNat % 16)]
  else [c]

/-- The characters of a string between its quotation marks. -/
def escapeChars : List Char → List Char
  | [] => []
  | c :: cs => escapeChar c ++ escapeChars cs

/-- Modelled from the spec: QuoteJSONString of `JSON.stringify`, which is not
in the repository. -/
def quoteJSON (s : String) : List Char :=
  '"' :: (escapeChars s.data ++ ['"'])

/-- The texts `ts` separated by commas. -/
def joinComma : List (List Char) → List Char
  | [] => []
  | [t] => t
  | t :: ts => t ++ ',' :: joinComma ts

/-- The result of `JSON.stringify` or of one of its steps: the value
`undefined`, a text, or the outcome of a call of a `toJSON` method, which the
value universe does not determine. -/
inductive Serialized where
  | undefined
  | text (t : List Char)
  | callsToJSON
  deriving DecidableEq, Inhabited

/-- Whether an object has a callable `toJSON` property.  Objects of the
universe have own data properties only, and function objects have no
properties. -/
def hasCallableToJSON (props : List (String × JSValue)) : Bool :=
  match lookupProp "toJSON" props with
  | some (.fn _) => true
  | _ => false

mutual
/-- Modelled from the spec: SerializeJSONProperty of `JSON.stringify` (no
replacer, no indentation), which is not in the repository.  `undefined` and
function objects serialize to `undefined`.  For an object with a callable
`toJSON` the real function serializes what the method returns; the model
answers `callsToJSON`. -/
def serializeProperty : JSValue → Serialized
  | .undefined => .undefined
  | .fn _ => .undefined
  | .null => .text ['n', 'u', 'l', 'l']
  | .bool true => .text ['t', 'r', 'u', 'e']
  | .bool false => .text ['f', 'a', 'l', 's', 'e']
  | .str s => .text (quoteJSON s)
  | .arr items =>
    match serializeElements items with
    | some ts => .text ('[' :: (joinComma ts ++ [']']))
    | none => .callsToJSON
  | .obj props =>
    if hasCallableToJSON props then .callsToJSON
    else
      match serializeMembers props with
      | some ts => .text ('{' :: (joinComma ts ++ ['}']))
      | none => .callsToJSON
/-- Modelled from the spec: SerializeJSONArray.  An element that serializes to
`undefined` is written as `null`; `none` when an element calls `toJSON`. -/
def serializeElements : List JSValue → Option (List (List Char))
  | [] => some []
  | v :: vs =>
    match serializeProperty v, serializeElements vs with
    | .text t, some ts => some (t :: ts)
    | .undefined, some ts => some (['n', 'u', 'l', 'l'] :: ts)
    | _, _ => none
/-- Modelled from the spec: SerializeJSONObject.  A property whose value
serializes to `undefined` is left out; `none` when a value calls `toJSON`. -/
def serializeMembers : List (String × JSValue) → Option (List (List Char))
  | [] => some []
  | (k, v) :: ps =>
    match serializeProperty v, serializeMembers ps with
    | .text t, some ts => some ((quoteJSON k ++ ':' :: t) :: ts)
    | .undefined, some ts => some ts
    | _, _ => none
end

/-- Modelled from the spec: serialize, which is not in the repository, as the
call `JSON.stringify(v)`. -/
def serialize (v : JSValue) : Serialized :=
  serializeProperty v

/-- What `deserialize` answers when it returns no value: the text is not JSON,
or it holds a number or a surrogate escape, which stand for values outside the
value universe, or an object member named by an array index, whose place in the
property order the model does not describe. -/
inductive ParseError where
  | syntaxError
  | numberText
  | surrogateEscape
  | arrayIndexName
  deriving DecidableEq, Inhabited

/-- Whether a property name consists of decimal digits only.  Every array
index is such a name. -/
def isDigitName (k : List Char) : Bool :=
  k ≠ [] && k.all (fun c => 48 ≤ c.toNat && c.toNat ≤ 57)

/-- JSON white space. -/
def isWs (c : Char) : Bool :=
  c = ' ' || c = '\t' || c = '\n' || c = '\r'

/-- Dropping leading white space. -/
def skipWs : List Char → List Char
  | [] => []
  | c :: cs => if isWs c then skipWs cs else c :: cs

/-- The value of a hexadecimal digit. -/
def hexVal (c : Char) : Option Nat :=
  let n := c.toNat
  if 48 ≤ n ∧ n ≤ 57 then some (n - 48)
  else if 97 ≤ n ∧ n ≤ 102 then some (n - 87)
  else if 65 ≤ n ∧ n ≤ 70 then some (n - 55)
  else none

/-- The character of a `\uXXXX` escape.  An escape in the surrogate range
stands for a UTF-16 code unit, which the strings of the universe cannot hold. -/
def unicodeEscape (a b c d : Char) : Except ParseError Char :=
  match hexVal a, hexVal b, hexVal c, hexVal d with
  | some x, some y, some z, some w =>
    let n := ((x * 16 + y) * 16 + z) * 16 + w
    if 0xD800 ≤ n ∧ n ≤ 0xDFFF then .error .surrogateEscape else .ok (Char.ofNat n)
  | _, _, _, _ => .error .syntaxError

/-- The character of a one-letter escape. -/
def simpleEscape (e : Char) : Option Char :=
  if e = '"' then some '"'
  else if e = '\\' then some '\\'
  else if e = '/' then some '/'
  else if e = 'b' then some (Char.ofNat 8)
  else if e = 'f' then some (Char.ofNat 12)
  else if e = 'n' then some '\n'
  else if e = 'r' then some '\r'
  else if e = 't' then some '\t'
  else none

/-- Modelled from the spec: the rest of a JSON string after its opening
quotation mark, as `JSON.parse` reads it: the decoded characters and the text
after the closing quotation mark. -/
def parseStringBody : List Char → Except ParseError (List Char × List Char)
  | [] => .error .syntaxError
  | c :: cs =>
    if c = '"' then .ok ([], cs)
    else if c = '\\' then
      match cs with
      | [] => .error .syntaxError
      | e :: r =>
        if e = 'u' then
          match r with
          | a :: b :: c :: d :: r' =>
            match unicodeEscape a b c d with
            | .error err => .error err
            | .ok x =>
              match parseStringBody r' with
              | .ok (s, t) => .ok (x :: s, t)
              | .error err => .error err
          | _ => .error .syntaxError
        else
          match simpleEscape e with
          | none => .error .syntaxError
          | some x =>
            match parseStringBody r with
            | .ok (s, t) => .ok (x :: s, t)
            | .error err => .error err
    else if c.toNat < 32 then .error .syntaxError
    else
      match parseStringBody cs with
      | .ok (s, t) => .ok (c :: s, t)
      | .error err => .error err

/-- Reading the keyword `kw` off the front of a text. -/
def expectKeyword : List Char → List Char → Option (List Char)
  | [], cs => some cs
  | _ :: _, [] => none
  | k :: ks, c :: cs => if k = c then expectKeyword ks cs else none

/-- The value of a keyword and the text after it. -/
def parseKeyword (kw : List Char) (v : JSValue) (cs : List Char) :
    Except ParseError (JSValue × List Char) :=
  match expectKeyword kw cs with
  | some t => .ok (v, t)
  | none => .error .syntaxError

/-- Whether a character starts a JSON number. -/
def startsNumber (c : Char) : Bool :=
  c = '-' || (48 ≤ c.toNat && c.toNat ≤ 57)

mutual
/-- Modelled from the spec: a JSON value at the front of a text, as
`JSON.parse` reads it, with the text that follows the value.  The first
argument bounds the number of nested calls; `deserialize` passes twice the
length of the text plus two.  A number is answered with `numberText`. -/
def parseValue : Nat → List Char → Except ParseError (JSValue × List Char)
  | 0, _ => .error .syntaxError
  | fuel + 1, cs =>
    match skipWs cs with
    | [] => .error .syntaxError
    | c :: rest =>
      if c = '"' then
        match parseStringBody rest with
        | .ok (s, t) => .ok (.str (String.mk s), t)
        | .error err => .error err
      else if c = '[' then
        match skipWs rest with
        | [] => .error .syntaxError
        | d :: rest' =>
          if d = ']' then .ok (.arr [], rest')
          else
            match parseElements fuel (d :: rest') with
            | .ok (items, t) => .ok (.arr items, t)
            | .error err => .error err
      else if c = '{' then
        match skipWs rest with
        | [] => .error .syntaxError
        | d :: rest' =>
          if d = '}' then .ok (.obj [], rest')
          else
            match parseMembers fuel [] (d :: rest') with
            | .ok (props, t) => .ok (.obj props, t)
            | .error err => .error err
      else if c = 't' then parseKeyword ['r', 'u', 'e'] (.bool true) rest
      else if c = 'f' then parseKeyword ['a', 'l', 's', 'e'] (.bool false) rest
      else if c = 'n' then parseKeyword ['u', 'l', 'l'] .null rest
      else if startsNumber c then .error .numberText
      else .error .syntaxError
/-- Modelled from the spec: the elements of a non-empty array up to and
including the closing bracket. -/
def parseElements : Nat → List Char → Except ParseError (List JSValue × List Char)
  | 0, _ => .error .syntaxError
  | fuel + 1, cs =>
    match parseValue fuel cs with
    | .error err => .error err
    | .ok (v, t) =>
      match skipWs t with
      | [] => .error .syntaxError
      | c :: rest =>
        if c = ',' then
          match parseElements fuel rest with
          | .ok (vs, t') => .ok (v :: vs, t')
          | .error err => .error err
        else if c = ']' then .ok ([v], rest)
        else .error .syntaxError
/-- Modelled from the spec: the members of a non-empty object up to and
including the closing brace.  `acc` holds the properties created so far; a
repeated name overwrites the earlier property, as CreateDataProperty does.  A
member named by digits only is answered with `arrayIndexName`. -/
def parseMembers : Nat → List (String × JSValue) → List Char →
    Except ParseError (List (String × JSValue) × List Char)
  | 0, _, _ => .error .syntaxError
  | fuel + 1, acc, cs =>
    match skipWs cs with
    | [] => .error .syntaxError
    | q :: rest =>
      if q = '"' then
        match parseStringBody rest with
        | .error err => .error err
        | .ok (k, t) =>
          match skipWs t with
          | [] => .error .syntaxError
          | colon :: t' =>
            if isDigitName k then .error .arrayIndexName
            else if colon = ':' then
              match parseValue fuel t' with
              | .error err => .error err
              | .ok (v, u) =>
                match skipWs u with
                | [] => .error .syntaxError
                | c :: rest' =>
                  if c = ',' then parseMembers fuel (setProp (String.mk k) v acc) rest'
                  else if c = '}' then .ok (setProp (String.mk k) v acc, rest')
                  else .error .syntaxError
            else .error .syntaxError
      else .error .syntaxError
end

/-- Modelled from the spec: deserialize, which is not in the repository, as
the call `JSON.parse(text)`: one value, then nothing but white space. -/
def deserialize (text : String) : Except ParseError JSValue :=
  match parseValue (2 * text.data.length + 2) text.data with
  | .ok (v, rest) => if skipWs rest = [] then .ok v else .error .syntaxError
  | .error err => .error err

/-- Modelled from the spec: serialize, then deserialize.  The result is `none`
when the round trip determines no value in the universe: the value serializes
to `undefined` or through a `toJSON` call, or its text is not read back. -/
def roundTrip (v : JSValue) : Option JSValue :=
  match serialize v with
  | .text t =>
    match deserialize (String.mk t) with
    | .ok w => some w
    | .error _ => none
  | _ => none

/-! ## Glob patterns -/

/-- One item of a path segment of a glob pattern. -/
inductive GlobAtom where
  | lit (c : Char)
  | anyChar
  | star
  | braces (alternatives : List (List GlobAtom))
  deriving Inhabited

/-- A path segment of a glob pattern: `**` on its own, or a run of items. -/
inductive GlobSegment where
  | globstar
  | atoms (items : List GlobAtom)
  deriving Inhabited

/-- A parsed glob pattern. -/
structure Glob where
  absolute : Bool
  segments : List GlobSegment
  deriving Inhabited

/-- The pieces of a text between the occurrences of `sep`. -/
def splitOnChar (sep : Char) : List Char → List (List Char)
  | [] => [[]]
  | c :: cs =>
    if c = sep then [] :: splitOnChar sep cs
    else
      match splitOnChar sep cs with
      | [] => [[c]]
      | piece :: pieces => (c :: piece) :: pieces

mutual
/-- Modelled from the spec: the items of a segment under the reference glob
grammar (the glob parser belongs to the external build tool and is not in the
repository).  Outside braces the items run to the end of the segment; inside
braces they run to the next `,` or `}` of the same nesting level, which is left
in place.  A brace that does not close, a `}` without a `{`, a `*` directly
followed by another `*`, and a `/` inside a segment are errors. -/
def parseAtoms : Nat → Bool → List Char → Option (List GlobAtom × List Char)
  | 0, _, _ => none
  | _ + 1, inBraces, [] => if inBraces then none else some ([], [])
  | fuel + 1, inBraces, c :: rest =>
    if c = '/' then none
    else if c = '}' then (if inBraces then some ([], c :: rest) else none)
    else if c = ',' ∧ inBraces = true then some ([], c :: rest)
    else if c = '{' then
      match parseAlternatives fuel rest with
      | none => none
      | some (alts, rest') =>
        match parseAtoms fuel inBraces rest' with
        | none => none
        | some (items, rest'') => some (.braces alts :: items, rest'')
    else if c = '*' then
      match rest with
      | d :: _ =>
        if d = '*' then none
        else
          match parseAtoms fuel inBraces rest with
          | none => none
          | some (items, rest') => some (.star :: items, rest')
      | [] =>
        match parseAtoms fuel inBraces rest with
        | none => none
        | some (items, rest') => some (.star :: items, rest')
    else
      match parseAtoms fuel inBraces rest with
      | none => none
      | some (items, rest') =>
        some ((if c = '?' then GlobAtom.anyChar else GlobAtom.lit c) :: items, rest')
/-- Modelled from the spec: the comma-separated alternatives after an opening
brace, up to and including the closing brace.  There is at least one
alternative and no alternative is empty. -/
def parseAlternatives : Nat → List Char → Option (List (List GlobAtom) × List Char)
  | 0, _ => none
  | fuel + 1, cs =>
    match parseAtoms fuel true cs with
    | none => none
    | some ([], _) => none
    | some (item :: items, rest) =>
      match rest with
      | [] => none
      | d :: rest' =>
        if d = ',' then
          match parseAlternatives fuel rest' with
          | none => none
          | some (alts, rest'') => some ((item :: items) :: alts, rest'')
        else if d = '}' then some ([item :: items], rest')
        else none
end

/-- Modelled from the spec: one path segment.  The segment `**` is the
globstar; any other segment is a non-empty run of items. -/
def parseSegment (cs : List Char) : Option GlobSegment :=
  if cs = ['*', '*'] then some .globstar
  else
    match parseAtoms (2 * cs.length + 2) false cs with
    | some (item :: items, []) => some (.atoms (item :: items))
    | _ => none

/-- All segments of a pattern, or `none` when one of them is in error. -/
def parseSegments : List (List Char) → Option (List GlobSegment)
  | [] => some []
  | cs :: rest =>
    match parseSegment cs, parseSegments rest with
    | some seg, some segs => some (seg :: segs)
    | _, _ => none

/-- Modelled from the spec: the reference glob grammar.  A pattern is a
non-empty sequence of segments separated by `/`, possibly after a leading `/`;
the braces of a segment are balanced and hold a non-empty comma-separated list
of alternatives; `**` stands only as a whole segment and `*` never directly
follows `*` otherwise. -/
def parseGlob (pattern : String) : Option Glob :=
  match pattern.data with
  | [] => none
  | c :: cs =>
    if c = '/' then (parseSegments (splitOnChar '/' cs)).map (Glob.mk true)
    else (parseSegments (splitOnChar '/' (c :: cs))).map (Glob.mk false)

/-- The hexadecimal colour pattern `^#[0-9A-Fa-f]{6}$`. -/
def isHexColor (s : String) : Bool :=
  match s.data with
  | [] => false
  | c :: ds => c = '#' && ds.length = 6 && ds.all (fun d => (hexVal d).isSome)

/-! ## Reading a loaded configuration -/

/-- The five accessors of a loaded configuration. -/
inductive Accessor where
  | contentGlobs
  | containerCentering
  | paletteExtensions
  | backgroundImageExtensions
  | pluginList
  deriving DecidableEq, Inhabited

/-- The value an accessor exposes. -/
def Accessor.value : Accessor → JSValue → Option JSValue
  | .contentGlobs => Unchained.contentGlobs
  | .containerCentering => Unchained.containerCentering
  | .paletteExtensions => Unchained.paletteExtensions
  | .backgroundImageExtensions => Unchained.backgroundImageExtensions
  | .pluginList => Unchained.pluginList

/-- One read of the loaded configuration: the configuration after the read and
the value read.  All properties of the object literal are data properties, so a
read runs no code of the module and leaves the object as it is. -/
def Accessor.read (a : Accessor) (cfg : JSValue) : JSValue × Option JSValue :=
  (cfg, a.value cfg)

/-- A sequence of reads: the configuration after the last read and the values
read, in order. -/
def readAll : List Accessor → JSValue → JSValue × List (Option JSValue)
  | [], cfg => (cfg, [])
  | a :: as, cfg =>
    let step := a.read cfg
    let later := readAll as step.1
    (later.1, step.2 :: later.2)

/-- The five accessors in the order of the specification. -/
def fiveAccessors : List Accessor :=
  [.contentGlobs, .containerCentering, .paletteExtensions, .backgroundImageExtensions,
   .pluginList]

/-! ## Writing a loaded configuration -/

/-- Whether an assignment to the property named `k` of an ordinary object
defines or updates the own data property `k` in the way `setProp` describes.
The name `__proto__` reaches the prototype instead, and a name of digits only
takes a place in the property order that `setProp` does not describe. -/
def isOrdinaryName (k : String) : Bool :=
  !(isDigitName k.data) && k != "__proto__"

/-- The assignment `v.k1. ... .kn = w` through object properties.  The objects
of the module are created by object literals and the file never freezes, seals
or redefines them, so they are extensible and their properties are writable:
the assignment replaces the value of an existing property and creates a
missing one.  The result is `none` when the assignment throws (a property on
the way to the last one is missing) or is not described by the model (the
holder is an array, a function or a primitive value, or the last name is not
ordinary). -/
def assignPath : List String → JSValue → JSValue → Option JSValue
  | [], _, _ => none
  | [k], .obj props, w => if isOrdinaryName k then some (.obj (setProp k w props)) else none
  | k :: k' :: ks, .obj props, w =>
    match lookupProp k props with
    | some child =>
      match assignPath (k' :: ks) child w with
      | some child' => some (.obj (setProp k child' props))
      | none => none
    | none => none
  | _ :: _, _, _ => none

/-- An operation on a loaded configuration: a read of one of the five
attributes, or an assignment to a property path. -/
inductive ConfigOp where
  | read (a : Accessor)
  | assign (path : List String) (value : JSValue)
  deriving Inhabited

/-- Whether the operation is a read. -/
def ConfigOp.isRead : ConfigOp → Bool
  | .read _ => true
  | .assign _ _ => false

/-- The configuration after one operation, or `none` when the operation
throws or is not described by the model. -/
def ConfigOp.run (op : ConfigOp) (cfg : JSValue) : Option JSValue :=
  match op with
  | .read a => some (a.read cfg).1
  | .assign path w => assignPath path cfg w

/-- The configuration after a sequence of operations, or `none` when one of
them throws or is not described by the model. -/
def runOps : List ConfigOp → JSValue → Option JSValue
  | [], cfg => some cfg
  | op :: ops, cfg =>
    match op.run cfg with
    | some cfg' => runOps ops cfg'
    | none => none

/-! ## Merging extensions into a base set -/

/-- Modelled from the spec: the additive merge of an extension mapping into a
base mapping, performed by the external build tool, as a right-biased union on
keys.  Each extension entry is defined on the base in turn. -/
def mergeExtensions (base ext : List (String × JSValue)) : List (String × JSValue) :=
  ext.foldl (fun acc kv => setProp kv.1 kv.2 acc) base

mutual
/-- The paths, from `v` downwards through object properties, at which a
property named `key` occurs. -/
def pathsOfKey (key : String) : JSValue → List (List String)
  | .obj props => pathsOfKeyProps key props
  | _ => []
/-- The paths of `pathsOfKey` through a property list. -/
def pathsOfKeyProps (key : String) : List (String × JSValue) → List (List String)
  | [] => []
  | (k, v) :: ps =>
    (if k = key then [[k]] else []) ++ (pathsOfKey key v).map (fun path => k :: path)
      ++ pathsOfKeyProps key ps
end

/-! ## Loaders used as concrete environments -/

/-- An environment in which the typography package is installed and exports the
function object `ref`. -/
def installed (ref : Nat) : Require :=
  fun request =>
    if request = typographyRequest then .ok (.fn ref) else .error (.moduleNotFound request)

/-- An environment in which every request resolves, the typography package to
the function object `ref` and any other package to `null`. -/
def installedAmongOthers (ref : Nat) : Require :=
  fun request => if request = typographyRequest then .ok (.fn ref) else .ok .null

/-- An environment without any installed package. -/
def notInstalled : Require :=
  fun request => .error (.moduleNotFound request)

/-! ## Basic facts -/

theorem arrayLiteral_foldl (acc elems : List JSValue) :
    elems.foldl (fun items v => items ++ [v]) acc = acc ++ elems := by
  induction elems generalizing acc with
  | nil => simp
  | cons e es ih => simp [ih]

/-- An array literal holds its elements in the order in which they are
written. -/
theorem arrayLiteral_eq (elems : List JSValue) : arrayLiteral elems = .arr elems := by
  simp [arrayLiteral, arrayLiteral_foldl]

theorem lookupProp_setProp (k k' : String) (v : JSValue) (ps : List (String × JSValue)) :
    lookupProp k (setProp k' v ps) = if k' = k then some v else lookupProp k ps := by
  induction ps with
  | nil => simp [setProp, lookupProp]
  | cons kv ps ih =>
    obtain ⟨k0, v0⟩ := kv
    by_cases h0 : k0 = k'
    · subst h0
      simp only [setProp, lookupProp, if_true]
      by_cases h : k0 = k <;> simp [h]
    · by_cases h1 : k0 = k
      · subst h1
        have h2 : ¬ k' = k0 := fun h => h0 h.symm
        simp [setProp, lookupProp, h0, h2]
      · simp [setProp, lookupProp, h0, h1, ih]

theorem lookupProp_mergeExtensions (k : String) (ext base : List (String × JSValue)) :
    lookupProp k (mergeExtensions base ext) =
      match lookupProp k ext.reverse with
      | some v => some v
      | none => lookupProp k base := by
  induction ext generalizing base with
  | nil => simp [mergeExtensions, lookupProp]
  | cons kv ext ih =>
    obtain ⟨k0, v0⟩ := kv
    have hstep : mergeExtensions base ((k0, v0) :: ext) =
        mergeExtensions (setProp k0 v0 base) ext := rfl
    rw [hstep, ih, lookupProp_setProp]
    have happ : ∀ (qs : List (String × JSValue)),
        lookupProp k (qs ++ [(k0, v0)]) =
          match lookupProp k qs with
          | some v => some v
          | none => if k0 = k then some v0 else none := by
      intro qs
      induction qs with
      | nil => simp [lookupProp]
      | cons q qs ihq =>
        obtain ⟨k1, v1⟩ := q
        by_cases h1 : k1 = k
        · simp [lookupProp, h1]
        · simp [lookupProp, h1, ihq]
    rw [List.reverse_cons, happ]
    cases lookupProp k ext.reverse with
    | some v => rfl
    | none =>
      by_cases h0 : k0 = k
      · simp [h0]
      · simp [h0]

/-- The exported object when the `require` call returns `typography`. -/
theorem moduleExports_of_ok (require : Require) (typography : JSValue)
    (h : require typographyRequest = .ok typography) :
    moduleExports require =
      .ok (.obj [("content", content), ("theme", theme), ("plugins", plugins typography)]) := by
  unfold moduleExports
  rw [h]
  rfl

/-- The evaluation of the module throws when the `require` call throws. -/
theorem moduleExports_of_error (require : Require) (e : JSError)
    (h : require typographyRequest = .error e) :
    moduleExports require = .error e := by
  unfold moduleExports
  rw [h]
  rfl

theorem readAll_fst (as : List Accessor) (cfg : JSValue) : (readAll as cfg).1 = cfg := by
  induction as generalizing cfg with
  | nil => rfl
  | cons a as ih => simp [readAll, Accessor.read, ih]

/-! ## Facts about the round trip and about operations -/

set_option maxRecDepth 100000 in
/-- The list `content` comes back from the round trip as it is. -/
theorem roundTrip_content : roundTrip content = some content := rfl

set_option maxRecDepth 100000 in
/-- The object `theme` comes back from the round trip as it is. -/
theorem roundTrip_theme : roundTrip theme = some theme := rfl

set_option maxRecDepth 100000 in
/-- The round trip of the exported object when the plugin value is a function
object: the text holds `null` in the place of the function. -/
theorem roundTrip_exports_of_function (ref : Nat) :
    roundTrip (.obj [("content", content), ("theme", theme), ("plugins", plugins (.fn ref))]) =
      some (.obj [("content", content), ("theme", theme), ("plugins", .arr [.null])]) := rfl

set_option maxRecDepth 100000 in
/-- The text of the exported object when the plugin value is a function
object. -/
theorem serialize_exports_of_function (ref : Nat) :
    serialize (.obj [("content", content), ("theme", theme), ("plugins", plugins (.fn ref))]) =
      .text ("\x7b\"content\":[\"./templates/**/*.\x7bhtml,js,ts\x7d\"],\"theme\":\x7b\"container\":\x7b\"center\":true\x7d,\"extend\":\x7b\"colors\":\x7b\"light-red\":\"#FFDADA\",\"light-blue\":\"#DADFFF\",\"off-white\":\"#F8F8F8\"\x7d,\"backgroundImage\":\x7b\"gradient-radial\":\"radial-gradient(farthest-corner at 300px 400px, var(--tw-gradient-stops))\"\x7d\x7d\x7d,\"plugins\":[null]\x7d").data :=
  rfl

set_option maxRecDepth 100000 in
/-- The model answers `callsToJSON` for an object with a `toJSON` method,
`numberText` for a number, `surrogateEscape` for a surrogate escape and
`arrayIndexName` for a member named by digits, and reads white space, escapes
and repeated names as `JSON.parse` does. -/
theorem json_model_edges :
    serialize (.obj [("toJSON", .fn 0)]) = .callsToJSON ∧
    serialize (.arr [.obj [("a", .null), ("toJSON", .fn 0)]]) = .callsToJSON ∧
    serialize (.fn 0) = .undefined ∧
    serialize (.obj [("a", .fn 0), ("b", .undefined), ("c", .arr [.fn 0, .undefined])]) =
      .text "\x7b\"c\":[null,null]\x7d".data ∧
    serialize (.str "a\"b\\c\n") = .text "\"a\\\"b\\\\c\\n\"".data ∧
    deserialize "[1]" = .error .numberText ∧
    deserialize "-0.5" = .error .numberText ∧
    deserialize "\"\\ud83d\"" = .error .surrogateEscape ∧
    deserialize "[true,]" = .error .syntaxError ∧
    deserialize "\x7b\"b\":null,\"1\":null\x7d" = .error .arrayIndexName ∧
    deserialize " [ true , \"\\u0041\\/\" ] " = .ok (.arr [.bool true, .str "A/"]) ∧
    deserialize "\x7b\"a\":null,\"b\":\x7b\x7d,\"a\":false\x7d" =
      .ok (.obj [("a", .bool false), ("b", .obj [])]) :=
  ⟨rfl, rfl, rfl, rfl, rfl, rfl, rfl, rfl, rfl, rfl, rfl, rfl⟩

/-- Names such as `darkMode` are ordinary; a name of digits and `__proto__`
are not, and an assignment to them or through an array is not described. -/
theorem assignPath_edges :
    isOrdinaryName "darkMode" = true ∧
    isOrdinaryName "0" = false ∧
    isOrdinaryName "__proto__" = false ∧
    assignPath ["0"] (.obj []) .null = none ∧
    assignPath ["content", "0"] (.obj [("content", content)]) .null = none ∧
    assignPath ["missing", "x"] (.obj [("content", content)]) .null = none ∧
    assignPath ["darkMode"] (.obj [("content", content)]) (.str "class") =
      some (.obj [("content", content), ("darkMode", .str "class")]) :=
  ⟨rfl, rfl, rfl, rfl, rfl, rfl, rfl⟩

/-- A sequence of reads leaves the configuration as it is. -/
theorem runOps_of_reads (ops : List ConfigOp) (cfg : JSValue)
    (h : ∀ op ∈ ops, op.isRead = true) : runOps ops cfg = some cfg := by
  induction ops generalizing cfg with
  | nil => rfl
  | cons op ops ih =>
    have hop : op.isRead = true := h op (List.mem_cons_self op ops)
    have hrest : ∀ o ∈ ops, o.isRead = true := fun o ho => h o (List.mem_cons_of_mem op ho)
    cases op with
    | read a => exact ih cfg hrest
    | assign path w => simp [ConfigOp.isRead] at hop

/-- Defining a property leaves the reads through every other property as they
are. -/
theorem getPath_setProp_other (props : List (String × JSValue)) (k k0 : String)
    (w : JSValue) (ks : List String) (h : k ≠ k0) :
    (JSValue.obj (setProp k w props)).getPath (k0 :: ks) =
      (JSValue.obj props).getPath (k0 :: ks) := by
  simp [JSValue.getPath, JSValue.getProp, lookupProp_setProp, h]

/-- The parse tree of the template pattern of the file. -/
theorem parseGlob_templates :
    parseGlob "./templates/**/*.\x7bhtml,js,ts\x7d" =
      some ⟨false,
        [ .atoms [.lit '.'],
          .atoms [.lit 't', .lit 'e', .lit 'm', .lit 'p', .lit 'l', .lit 'a', .lit 't',
            .lit 'e', .lit 's'],
          .globstar,
          .atoms [.star, .lit '.',
            .braces [[.lit 'h', .lit 't', .lit 'm', .lit 'l'], [.lit 'j', .lit 's'],
              [.lit 't', .lit 's']]] ]⟩ := rfl

/-- The reference grammar refuses the empty pattern, a brace that does not
close, a closing brace without an opening one, an empty list of alternatives,
an empty alternative, `**` inside a segment, and three stars in a row. -/
theorem parseGlob_refuses :
    parseGlob "" = none ∧
    parseGlob "./templates/**/*.\x7bhtml,js,ts" = none ∧
    parseGlob "./templates/**/*.html\x7d" = none ∧
    parseGlob "./templates/**/*.\x7b\x7d" = none ∧
    parseGlob "./templates/**/*.\x7bhtml,,ts\x7d" = none ∧
    parseGlob "./templates/a**/*.html" = none ∧
    parseGlob "./templates/***/*.html" = none :=
  ⟨rfl, rfl, rfl, rfl, rfl, rfl, rfl⟩

/-! ## The claims -/

/-- C1: whenever the module loads, the exported object has exactly the properties
`content`, `theme` and `plugins`; `content` is the one-element list with the
template pattern, `theme.container.center` is `true`, `theme.extend.colors` and
`theme.extend.backgroundImage` are exactly the written mappings, `plugins` has
length one, and reading the five values a second time yields the same values. -/
theorem exported_five_values (require : Require) (typography : JSValue)
    (h : require typographyRequest = .ok typography) :
    ∃ cfg, moduleExports require = .ok cfg ∧
      cfg.keys = ["content", "theme", "plugins"] ∧
      contentGlobs cfg = some (.arr [.str "./templates/**/*.\x7bhtml,js,ts\x7d"]) ∧
      containerCentering cfg = some (.bool true) ∧
      paletteExtensions cfg = some (.obj
        [("light-red", .str "#FFDADA"), ("light-blue", .str "#DADFFF"),
          ("off-white", .str "#F8F8F8")]) ∧
      backgroundImageExtensions cfg = some (.obj
        [("gradient-radial",
          .str "radial-gradient(farthest-corner at 300px 400px, var(--tw-gradient-stops))")]) ∧
      (pluginList cfg).bind JSValue.length = some 1 ∧
      (readAll fiveAccessors (readAll fiveAccessors cfg).1).2 = (readAll fiveAccessors cfg).2 := by
  refine ⟨_, moduleExports_of_ok require typography h, rfl, rfl, rfl, rfl, rfl, rfl, ?_⟩
  rw [readAll_fst]

/-- The statement of `exported_five_values` in the environment `installed 0`. -/
theorem exported_five_values_witness :
    installed 0 typographyRequest = .ok (.fn 0) ∧
    ∃ cfg, moduleExports (installed 0) = .ok cfg ∧
      cfg.keys = ["content", "theme", "plugins"] ∧
      contentGlobs cfg = some (.arr [.str "./templates/**/*.\x7bhtml,js,ts\x7d"]) ∧
      containerCentering cfg = some (.bool true) ∧
      paletteExtensions cfg = some (.obj
        [("light-red", .str "#FFDADA"), ("light-blue", .str "#DADFFF"),
          ("off-white", .str "#F8F8F8")]) ∧
      backgroundImageExtensions cfg = some (.obj
        [("gradient-radial",
          .str "radial-gradient(farthest-corner at 300px 400px, var(--tw-gradient-stops))")]) ∧
      (pluginList cfg).bind JSValue.length = some 1 ∧
      (readAll fiveAccessors (readAll fiveAccessors cfg).1).2 = (readAll fiveAccessors cfg).2 :=
  ⟨rfl, exported_five_values (installed 0) (.fn 0) rfl⟩

/-- C2: the entries of `theme.extend.colors` have pairwise distinct keys, and every
value is a string matching `^#[0-9A-Fa-f]{6}$`. -/
theorem palette_keys_distinct_values_hex (require : Require) (typography : JSValue)
    (h : require typographyRequest = .ok typography) :
    ∃ cfg, moduleExports require = .ok cfg ∧
      ∃ props, paletteExtensions cfg = some (.obj props) ∧
        (props.map Prod.fst).Nodup ∧
        ∀ kv ∈ props, ∃ s, kv.2 = .str s ∧ isHexColor s = true := by
  refine ⟨_, moduleExports_of_ok require typography h,
    [("light-red", .str "#FFDADA"), ("light-blue", .str "#DADFFF"),
      ("off-white", .str "#F8F8F8")], rfl, by decide, ?_⟩
  intro kv hkv
  simp only [List.mem_cons, List.mem_singleton, List.not_mem_nil, or_false] at hkv
  rcases hkv with rfl | rfl | rfl
  · exact ⟨_, rfl, by decide⟩
  · exact ⟨_, rfl, by decide⟩
  · exact ⟨_, rfl, by decide⟩

/-- The statement of `palette_keys_distinct_values_hex` in the environment `installed 0`. -/
theorem palette_keys_distinct_values_hex_witness :
    installed 0 typographyRequest = .ok (.fn 0) ∧
    ∃ cfg, moduleExports (installed 0) = .ok cfg ∧
      ∃ props, paletteExtensions cfg = some (.obj props) ∧
        (props.map Prod.fst).Nodup ∧
        ∀ kv ∈ props, ∃ s, kv.2 = .str s ∧ isHexColor s = true :=
  ⟨rfl, palette_keys_distinct_values_hex (installed 0) (.fn 0) rfl⟩

/-- C3: the entries of `theme.extend.backgroundImage` have pairwise distinct keys,
and every value is a non-empty string. -/
theorem background_images_keys_distinct_values_nonempty (require : Require) (typography : JSValue)
    (h : require typographyRequest = .ok typography) :
    ∃ cfg, moduleExports require = .ok cfg ∧
      ∃ props, backgroundImageExtensions cfg = some (.obj props) ∧
        (props.map Prod.fst).Nodup ∧
        ∀ kv ∈ props, ∃ s, kv.2 = .str s ∧ s ≠ "" ∧ 0 < s.length := by
  refine ⟨_, moduleExports_of_ok require typography h,
    [("gradient-radial", .str "radial-gradient(farthest-corner at 300px 400px, var(--tw-gradient-stops))")], rfl, by decide, ?_⟩
  intro kv hkv
  simp only [List.mem_singleton] at hkv
  subst hkv
  exact ⟨_, rfl, by decide, by decide⟩

/-- The statement of `background_images_keys_distinct_values_nonempty` in the environment `installed 0`. -/
theorem background_images_keys_distinct_values_nonempty_witness :
    installed 0 typographyRequest = .ok (.fn 0) ∧
    ∃ cfg, moduleExports (installed 0) = .ok cfg ∧
      ∃ props, backgroundImageExtensions cfg = some (.obj props) ∧
        (props.map Prod.fst).Nodup ∧
        ∀ kv ∈ props, ∃ s, kv.2 = .str s ∧ s ≠ "" ∧ 0 < s.length :=
  ⟨rfl, background_images_keys_distinct_values_nonempty (installed 0) (.fn 0) rfl⟩

/-- C4: the `content` list is non-empty, it holds the template pattern, and every
entry is a string that parses under the reference glob grammar. -/
theorem content_globs_valid (require : Require) (typography : JSValue)
    (h : require typographyRequest = .ok typography) :
    ∃ cfg, moduleExports require = .ok cfg ∧
      ∃ items, contentGlobs cfg = some (.arr items) ∧
        items ≠ [] ∧
        JSValue.str "./templates/**/*.\x7bhtml,js,ts\x7d" ∈ items ∧
        ∀ item ∈ items, ∃ s g, item = .str s ∧ parseGlob s = some g := by
  refine ⟨_, moduleExports_of_ok require typography h,
    [.str "./templates/**/*.\x7bhtml,js,ts\x7d"], rfl, by simp, by simp, ?_⟩
  intro item hitem
  simp only [List.mem_singleton] at hitem
  subst hitem
  exact ⟨_, _, rfl, rfl⟩

/-- The statement of `content_globs_valid` in the environment `installed 0`. -/
theorem content_globs_valid_witness :
    installed 0 typographyRequest = .ok (.fn 0) ∧
    ∃ cfg, moduleExports (installed 0) = .ok cfg ∧
      ∃ items, contentGlobs cfg = some (.arr items) ∧
        items ≠ [] ∧
        JSValue.str "./templates/**/*.\x7bhtml,js,ts\x7d" ∈ items ∧
        ∀ item ∈ items, ∃ s g, item = .str s ∧ parseGlob s = some g :=
  ⟨rfl, content_globs_valid (installed 0) (.fn 0) rfl⟩

/-- C5, as stated, fails: where the typography package exports a function, the
`plugins` entry of the loaded config is that function, the round trip through
JSON returns a config whose `plugins` entry is `null`, and so the round trip
does not return the original config. -/
theorem roundTrip_loses_function_plugin :
    ∃ cfg, moduleExports (installed 0) = .ok cfg ∧
      pluginList cfg = some (.arr [.fn 0]) ∧
      (∃ back, roundTrip cfg = some back ∧ pluginList back = some (.arr [.null])) ∧
      roundTrip cfg ≠ some cfg := by
  refine ⟨_, moduleExports_of_ok (installed 0) (.fn 0) rfl, rfl,
    ⟨_, roundTrip_exports_of_function 0, rfl⟩, ?_⟩
  rw [roundTrip_exports_of_function 0]
  simp [plugins, arrayLiteral_eq]

/-- C5, amended: `theme.container.center` is a boolean; `content` and `theme`
come back from the round trip through JSON as they are; and when the value
that `require` returned for the typography package is a function object, the
round trip of the whole config succeeds and returns a config with the same
`content`, `theme.container.center`, `theme.extend.colors` and
`theme.extend.backgroundImage`, whose `plugins` entry is `null` in the place of
the function, so that the returned config is not the original one. -/
theorem roundTrip_config (require : Require) (ref : Nat)
    (h : require typographyRequest = .ok (.fn ref)) :
    ∃ cfg back, moduleExports require = .ok cfg ∧
      (∃ b, containerCentering cfg = some (.bool b)) ∧
      roundTrip content = some content ∧
      roundTrip theme = some theme ∧
      roundTrip cfg = some back ∧
      contentGlobs back = contentGlobs cfg ∧
      containerCentering back = containerCentering cfg ∧
      paletteExtensions back = paletteExtensions cfg ∧
      backgroundImageExtensions back = backgroundImageExtensions cfg ∧
      pluginList cfg = some (.arr [.fn ref]) ∧
      pluginList back = some (.arr [.null]) ∧
      back ≠ cfg := by
  refine ⟨_, _, moduleExports_of_ok require (.fn ref) h, ⟨true, rfl⟩, roundTrip_content,
    roundTrip_theme, roundTrip_exports_of_function ref, rfl, rfl, rfl, rfl, rfl, rfl, ?_⟩
  simp [plugins, arrayLiteral_eq]

/-- The statement of `roundTrip_config` in the environment `installed 0`. -/
theorem roundTrip_config_witness :
    installed 0 typographyRequest = .ok (.fn 0) ∧
    ∃ cfg back, moduleExports (installed 0) = .ok cfg ∧
      (∃ b, containerCentering cfg = some (.bool b)) ∧
      roundTrip content = some content ∧
      roundTrip theme = some theme ∧
      roundTrip cfg = some back ∧
      contentGlobs back = contentGlobs cfg ∧
      containerCentering back = containerCentering cfg ∧
      paletteExtensions back = paletteExtensions cfg ∧
      backgroundImageExtensions back = backgroundImageExtensions cfg ∧
      pluginList cfg = some (.arr [.fn 0]) ∧
      pluginList back = some (.arr [.null]) ∧
      back ≠ cfg :=
  ⟨rfl, roundTrip_config (installed 0) 0 rfl⟩

/-- C6: the `plugins` list holds exactly one entry, the value returned by
`require` for the typography package; an indexed read returns the entry written
at that index, and two reads of the list return the same sequence. -/
theorem plugin_list_single_entry_in_order (require : Require) (typography : JSValue)
    (h : require typographyRequest = .ok typography) :
    ∃ cfg, moduleExports require = .ok cfg ∧
      pluginList cfg = some (.arr [typography]) ∧
      (pluginList cfg).bind JSValue.length = some 1 ∧
      (∀ i, (pluginList cfg).bind (fun l => l.index i) = [typography].get? i) ∧
      (readAll [.pluginList, .pluginList] cfg).2 =
        [some (.arr [typography]), some (.arr [typography])] := by
  refine ⟨_, moduleExports_of_ok require typography h, rfl, rfl, ?_, rfl⟩
  intro i
  rfl

/-- The statement of `plugin_list_single_entry_in_order` in the environment `installed 0`. -/
theorem plugin_list_single_entry_in_order_witness :
    installed 0 typographyRequest = .ok (.fn 0) ∧
    ∃ cfg, moduleExports (installed 0) = .ok cfg ∧
      pluginList cfg = some (.arr [(.fn 0)]) ∧
      (pluginList cfg).bind JSValue.length = some 1 ∧
      (∀ i, (pluginList cfg).bind (fun l => l.index i) = [(.fn 0)].get? i) ∧
      (readAll [.pluginList, .pluginList] cfg).2 =
        [some (.arr [(.fn 0)]), some (.arr [(.fn 0)])] :=
  ⟨rfl, plugin_list_single_entry_in_order (installed 0) (.fn 0) rfl⟩

/-- C8, as stated, fails: the loaded config is an ordinary object, and an
assignment to `content` or to `theme.container.center` succeeds and changes
the attribute for every later read. -/
theorem exported_config_is_writable :
    ∃ cfg, moduleExports (installed 0) = .ok cfg ∧
      contentGlobs cfg = some (.arr [.str "./templates/**/*.\x7bhtml,js,ts\x7d"]) ∧
      containerCentering cfg = some (.bool true) ∧
      (∃ cfg', (ConfigOp.assign ["content"] (.arr [])).run cfg = some cfg' ∧
        contentGlobs cfg' = some (.arr []) ∧
        contentGlobs cfg' ≠ contentGlobs cfg ∧
        runOps [.assign ["content"] (.arr []), .read .contentGlobs] cfg = some cfg') ∧
      (∃ cfg', (ConfigOp.assign ["theme", "container", "center"] (.bool false)).run cfg =
          some cfg' ∧
        containerCentering cfg' = some (.bool false) ∧
        containerCentering cfg' ≠ containerCentering cfg) := by
  refine ⟨_, moduleExports_of_ok (installed 0) (.fn 0) rfl, rfl, rfl,
    ⟨_, rfl, rfl, ?_, rfl⟩, ⟨_, rfl, rfl, ?_⟩⟩
  · intro hc
    have h1 : some (JSValue.arr []) =
        some (JSValue.arr [.str "./templates/**/*.\x7bhtml,js,ts\x7d"]) := hc
    simp at h1
  · intro hc
    have h1 : some (JSValue.bool false) = some (JSValue.bool true) := hc
    simp at h1

/-- C8, amended: after the module is loaded, any sequence of reads of the five
attributes leaves the configuration, and with it each of the five exposed
values, unchanged; and an assignment to a top-level property with an ordinary
name other than `content`, `theme` and `plugins` succeeds and leaves each of
the five values unchanged. -/
theorem only_writes_change_config (require : Require) (typography : JSValue)
    (h : require typographyRequest = .ok typography) :
    ∃ cfg, moduleExports require = .ok cfg ∧
      (∀ ops : List ConfigOp, (∀ op ∈ ops, op.isRead = true) →
        runOps ops cfg = some cfg) ∧
      (∀ (k : String) (w : JSValue), isOrdinaryName k = true →
        k ≠ "content" → k ≠ "theme" → k ≠ "plugins" →
        ∃ cfg', (ConfigOp.assign [k] w).run cfg = some cfg' ∧
          ∀ a : Accessor, a.value cfg' = a.value cfg) := by
  refine ⟨_, moduleExports_of_ok require typography h, ?_, ?_⟩
  · intro ops hops
    exact runOps_of_reads ops _ hops
  · intro k w hk hc ht hp
    refine ⟨.obj (setProp k w
      [("content", content), ("theme", theme), ("plugins", plugins typography)]), ?_, ?_⟩
    · simp [ConfigOp.run, assignPath, hk]
    · intro a
      cases a
      · exact getPath_setProp_other _ k "content" w [] hc
      · exact getPath_setProp_other _ k "theme" w ["container", "center"] ht
      · exact getPath_setProp_other _ k "theme" w ["extend", "colors"] ht
      · exact getPath_setProp_other _ k "theme" w ["extend", "backgroundImage"] ht
      · exact getPath_setProp_other _ k "plugins" w [] hp

/-- The statement of `only_writes_change_config` in the environment
`installed 0`. -/
theorem only_writes_change_config_witness :
    installed 0 typographyRequest = .ok (.fn 0) ∧
    ∃ cfg, moduleExports (installed 0) = .ok cfg ∧
      (∀ ops : List ConfigOp, (∀ op ∈ ops, op.isRead = true) →
        runOps ops cfg = some cfg) ∧
      (∀ (k : String) (w : JSValue), isOrdinaryName k = true →
        k ≠ "content" → k ≠ "theme" → k ≠ "plugins" →
        ∃ cfg', (ConfigOp.assign [k] w).run cfg = some cfg' ∧
          ∀ a : Accessor, a.value cfg' = a.value cfg) :=
  ⟨rfl, only_writes_change_config (installed 0) (.fn 0) rfl⟩

/-- C9: `theme` has exactly the keys `container` and `extend`; within `theme` the
properties `colors` and `backgroundImage` occur only under `extend`; and merging
them into any base mapping maps the configured names to the configured values
and leaves the lookup of every other name as in the base. -/
theorem extensions_are_additive (require : Require) (typography : JSValue)
    (h : require typographyRequest = .ok typography) :
    ∃ cfg, moduleExports require = .ok cfg ∧
      ∃ themeValue colorProps imageProps,
        cfg.getProp "theme" = some themeValue ∧
        themeValue.keys = ["container", "extend"] ∧
        pathsOfKey "colors" themeValue = [["extend", "colors"]] ∧
        pathsOfKey "backgroundImage" themeValue = [["extend", "backgroundImage"]] ∧
        paletteExtensions cfg = some (.obj colorProps) ∧
        backgroundImageExtensions cfg = some (.obj imageProps) ∧
        (∀ base k, lookupProp k (mergeExtensions base colorProps) =
          if k = "light-red" then some (.str "#FFDADA")
          else if k = "light-blue" then some (.str "#DADFFF")
          else if k = "off-white" then some (.str "#F8F8F8")
          else lookupProp k base) ∧
        (∀ base k, lookupProp k (mergeExtensions base imageProps) =
          if k = "gradient-radial" then
            some (.str "radial-gradient(farthest-corner at 300px 400px, var(--tw-gradient-stops))")
          else lookupProp k base) := by
  refine ⟨_, moduleExports_of_ok require typography h, _, _, _, rfl, rfl, rfl, rfl, rfl, rfl,
    ?_, ?_⟩
  · intro base k
    rw [lookupProp_mergeExtensions]
    by_cases h1 : k = "light-red"
    · subst h1; rfl
    by_cases h2 : k = "light-blue"
    · subst h2; rfl
    by_cases h3 : k = "off-white"
    · subst h3; rfl
    have h1' : ¬ "light-red" = k := fun e => h1 e.symm
    have h2' : ¬ "light-blue" = k := fun e => h2 e.symm
    have h3' : ¬ "off-white" = k := fun e => h3 e.symm
    simp [lookupProp, h1, h2, h3, h1', h2', h3']
  · intro base k
    rw [lookupProp_mergeExtensions]
    by_cases h1 : k = "gradient-radial"
    · subst h1; rfl
    have h1' : ¬ "gradient-radial" = k := fun e => h1 e.symm
    simp [lookupProp, h1, h1']

/-- The statement of `extensions_are_additive` in the environment `installed 0`. -/
theorem extensions_are_additive_witness :
    installed 0 typographyRequest = .ok (.fn 0) ∧
    ∃ cfg, moduleExports (installed 0) = .ok cfg ∧
      ∃ themeValue colorProps imageProps,
        cfg.getProp "theme" = some themeValue ∧
        themeValue.keys = ["container", "extend"] ∧
        pathsOfKey "colors" themeValue = [["extend", "colors"]] ∧
        pathsOfKey "backgroundImage" themeValue = [["extend", "backgroundImage"]] ∧
        paletteExtensions cfg = some (.obj colorProps) ∧
        backgroundImageExtensions cfg = some (.obj imageProps) ∧
        (∀ base k, lookupProp k (mergeExtensions base colorProps) =
          if k = "light-red" then some (.str "#FFDADA")
          else if k = "light-blue" then some (.str "#DADFFF")
          else if k = "off-white" then some (.str "#F8F8F8")
          else lookupProp k base) ∧
        (∀ base k, lookupProp k (mergeExtensions base imageProps) =
          if k = "gradient-radial" then
            some (.str "radial-gradient(farthest-corner at 300px 400px, var(--tw-gradient-stops))")
          else lookupProp k base) :=
  ⟨rfl, extensions_are_additive (installed 0) (.fn 0) rfl⟩

/-- C7, as stated, fails: the exported value differs between two environments in
which the typography package resolves to different objects, and the evaluation
of the module throws where the package is not installed. -/
theorem construction_depends_on_environment :
    moduleExports (installed 0) ≠ moduleExports (installed 1) ∧
    moduleExports notInstalled = .error (.moduleNotFound typographyRequest) := by
  refine ⟨?_, rfl⟩
  rw [moduleExports_of_ok (installed 0) (.fn 0) rfl, moduleExports_of_ok (installed 1) (.fn 1) rfl]
  simp [plugins, arrayLiteral]

/-- C7, amended: the result of loading the module depends on the environment
only through the result of `require` for the typography package.  Two
environments that agree on that request yield the same result; whenever the
module loads, `content` and `theme` are the written constants and `plugins`
holds the value the request resolved to; and the evaluation throws exactly when
that request throws, with the same error. -/
theorem construction_depends_only_on_typography (r1 r2 : Require)
    (h : r1 typographyRequest = r2 typographyRequest) :
    moduleExports r1 = moduleExports r2 ∧
    (∀ cfg, moduleExports r1 = .ok cfg →
      contentGlobs cfg = some content ∧ cfg.getProp "theme" = some theme ∧
      ∃ p, r1 typographyRequest = .ok p ∧ pluginList cfg = some (.arr [p])) ∧
    (∀ e, moduleExports r1 = .error e ↔ r1 typographyRequest = .error e) ∧
    ((∃ cfg, moduleExports r1 = .ok cfg) ↔ ∃ p, r1 typographyRequest = .ok p) := by
  refine ⟨?_, ?_, ?_, ?_⟩
  · unfold moduleExports
    rw [h]
  · intro cfg hcfg
    cases hreq : r1 typographyRequest with
    | error e =>
      rw [moduleExports_of_error r1 e hreq] at hcfg
      cases hcfg
    | ok p =>
      rw [moduleExports_of_ok r1 p hreq] at hcfg
      cases hcfg
      exact ⟨rfl, rfl, p, rfl, rfl⟩
  · intro e
    cases hreq : r1 typographyRequest with
    | error e' =>
      rw [moduleExports_of_error r1 e' hreq]
    | ok p =>
      rw [moduleExports_of_ok r1 p hreq]
      constructor <;> intro hc <;> cases hc
  · cases hreq : r1 typographyRequest with
    | error e =>
      rw [moduleExports_of_error r1 e hreq]
    | ok p =>
      rw [moduleExports_of_ok r1 p hreq]
      exact ⟨fun _ => ⟨p, rfl⟩, fun _ => ⟨_, rfl⟩⟩

/-- The statement of `construction_depends_only_on_typography` for two
environments that differ on every request but the typography package. -/
theorem construction_depends_only_on_typography_witness :
    installed 0 typographyRequest = installedAmongOthers 0 typographyRequest ∧
    installed 0 "tailwindcss" ≠ installedAmongOthers 0 "tailwindcss" ∧
    moduleExports (installed 0) = moduleExports (installedAmongOthers 0) :=
  ⟨rfl, by simp [installed, installedAmongOthers, typographyRequest],
    (construction_depends_only_on_typography (installed 0) (installedAmongOthers 0) rfl).1⟩

end Unchained
